import Mathlib

/-!
Verification of `src/code/part-one/validation.js` from the
education-cryptomoji repository: a shallow embedding of the transaction,
block and chain validators, and of the tamper-injection helper, together
with theorems settling the specification's claims about them.

The two cryptographic collaborators — Node's `createHash('sha512')` and
`signing.verify` — are external libraries from the validator's point of
view, so they are abstracted as an arbitrary `Crypto` record of pure
functions; every theorem is quantified over it.

JavaScript behaviour is embedded faithfully:
  * `null` is modelled by `Option.none`, and string concatenation with
    `null` yields the substring `"null"` (as JS `+` does);
  * numbers that get concatenated into strings go through `toString`;
  * an access such as `blocks[0].previousHash` on an empty array, which
    throws a `TypeError` in JS, is modelled by returning `Option.none`
    from the embedded function (`Option Bool` for validators that can
    throw, `Option Blockchain` for `breakChain`).
-/

/-- A transaction record: `source`, `recipient`, `amount`, `signature`. -/
structure Transaction where
  source : String
  recipient : String
  amount : Int
  signature : String
deriving Repr, DecidableEq

/-- A block record: ordered transactions, `previousHash` (JS `null` for the
genesis block is `none`), a numeric mining `nonce`, and the stored `hash`. -/
structure Block where
  transactions : List Transaction
  previousHash : Option String
  nonce : Nat
  hash : String
deriving Repr, DecidableEq

/-- A blockchain: the ordered sequence of blocks, index 0 = genesis. -/
structure Blockchain where
  blocks : List Block
deriving Repr, DecidableEq

/-- The external cryptographic collaborators, abstracted as pure functions:
`sha512` is the lowercase-hex SHA-512 digest of a string (Node
`createHash('sha512').update(s).digest('hex')`), and `verify` is
`signing.verify(publicKey, message, signature)`. -/
structure Crypto where
  sha512 : String → String
  verify : String → String → String → Bool

/-- JS coercion of a nullable string into a string under `+`:
`null + s` concatenates the substring `"null"`. -/
def jsStr : Option String → String
  | none => "null"
  | some s => s

/-- Embeds `isValidTransaction` (validation.js lines 13–19):
reject a negative `amount`, otherwise verify the signature over the
concatenated message `source + recipient + amount`. -/
def isValidTransaction (env : Crypto) (t : Transaction) : Bool :=
  if t.amount < 0 then
    false
  else
    env.verify t.source (t.source ++ t.recipient ++ toString t.amount) t.signature

/-- The concatenation of a block's transaction signatures in sequence order:
`block.transactions.map(t => t.signature).join('')`. -/
def transactionString (b : Block) : String :=
  String.join (b.transactions.map Transaction.signature)

/-- The hashed content of a block:
`block.previousHash + transactionString + block.nonce`. -/
def sumHash (b : Block) : String :=
  jsStr b.previousHash ++ transactionString b ++ toString b.nonce

/-- Embeds `isValidBlock` (validation.js lines 33–42): recompute the
SHA-512 digest of `sumHash` and compare to the stored hash; on a match,
check every contained transaction. -/
def isValidBlock (env : Crypto) (b : Block) : Bool :=
  if b.hash ≠ env.sha512 (sumHash b) then
    false
  else
    b.transactions.all (isValidTransaction env)

/-- Embeds `blocks.slice(1).some((b, i) => b.previousHash !== blocks[i].hash)`
(validation.js line 68): some consecutive pair has broken hash linkage. -/
def chainLinkBroken (blocks : List Block) : Bool :=
  ((blocks.drop 1).zip blocks).any fun p => decide (p.1.previousHash ≠ some p.2.hash)

/-- Embeds the flattening
`blocks.map(b => b.transactions).reduce((flat, ts) => flat.concat(ts), [])`
(validation.js lines 76–78). -/
def flattenTransactions (blocks : List Block) : List Transaction :=
  (blocks.map Block.transactions).foldl (fun flat ts => flat ++ ts) []

/-- Embeds `isValidChain` (validation.js lines 61–80). The very first step
reads `blocks[0].previousHash`, which throws a `TypeError` when `blocks` is
empty; that throw is modelled by `none`. -/
def isValidChain (env : Crypto) (blockchain : Blockchain) : Option Bool :=
  match blockchain.blocks with
  | [] => none
  | b0 :: rest =>
    if b0.previousHash ≠ none then
      some false
    else if chainLinkBroken (b0 :: rest) then
      some false
    else if (b0 :: rest).any (fun b => !isValidBlock env b) then
      some false
    else
      some ((flattenTransactions (b0 :: rest)).all (isValidTransaction env))

/-- Embeds `breakChain` (validation.js lines 87–90):
`blockchain.blocks[1].transactions[0].amount = 999999999`. The chained
member accesses throw when `blocks[1]` or `transactions[0]` is absent;
the throw is modelled by `none`, and the in-place mutation by returning
the updated chain. -/
def breakChain (blockchain : Blockchain) : Option Blockchain :=
  match blockchain.blocks with
  | b0 :: b1 :: rest =>
    match b1.transactions with
    | t0 :: ts =>
      some ⟨b0 :: { b1 with transactions := { t0 with amount := 999999999 } :: ts } :: rest⟩
    | [] => none
  | _ => none

/-! ### Concrete instances used by the witness theorems -/

/-- A concrete collaborator instance: the identity as hash, a verifier
that accepts everything. -/
def envAccept : Crypto :=
  { sha512 := fun s => s, verify := fun _ _ _ => true }

/-- A concrete transaction with a negative amount. -/
def txNeg : Transaction :=
  { source := "alice", recipient := "bob", amount := -5, signature := "sigA" }

/-- A concrete transaction with a non-negative amount. -/
def txPos : Transaction :=
  { source := "alice", recipient := "bob", amount := 10, signature := "sigB" }

/-- A concrete genesis block with no transactions whose stored hash equals
the `envAccept` digest of its content (`"null" ++ "" ++ "0"`). -/
def blkEmpty : Block :=
  { transactions := [], previousHash := none, nonce := 0, hash := "null0" }

/-- A concrete non-genesis block holding `txPos`. -/
def blkOne : Block :=
  { transactions := [txPos], previousHash := some "null0", nonce := 3,
    hash := "null0sigB3" }

/-- A concrete two-block chain: `blkEmpty` then `blkOne`. -/
def chainTwo : Blockchain := { blocks := [blkEmpty, blkOne] }

/-! ### Claims -/

/-- C1: the spec demands that a blockchain with zero blocks be rejected
with the boolean `false`, never with a thrown error — and the code's own
header comment says a chain "missing a genesis block" should be rejected.
The code instead reads `blocks[0].previousHash` on an empty array, which
throws a `TypeError` (modelled here as `none`), for every collaborator. -/
theorem isValidChain_empty_throws (env : Crypto) :
    isValidChain env { blocks := [] } = none := rfl

/-- C3: a transaction with a negative amount is rejected for every
collaborator, so the signature field and the verifier are never consulted. -/
theorem isValidTransaction_negative (env : Crypto) (t : Transaction)
    (h : t.amount < 0) : isValidTransaction env t = false := by
  simp [isValidTransaction, h]

/-- Witness for C3 at the concrete transaction `txNeg`. -/
theorem isValidTransaction_negative_witness :
    isValidTransaction envAccept txNeg = false :=
  isValidTransaction_negative envAccept txNeg (by decide)

/-- C4: a transaction with a non-negative amount is judged exactly by the
external verifier applied to `(source, source ++ recipient ++ amount,
signature)`. -/
theorem isValidTransaction_nonneg (env : Crypto) (t : Transaction)
    (h : ¬ t.amount < 0) :
    isValidTransaction env t
      = env.verify t.source (t.source ++ t.recipient ++ toString t.amount)
          t.signature := by
  simp [isValidTransaction, h]

/-- Witness for C4 at the concrete transaction `txPos`. -/
theorem isValidTransaction_nonneg_witness :
    isValidTransaction envAccept txPos
      = envAccept.verify txPos.source
          (txPos.source ++ txPos.recipient ++ toString txPos.amount)
          txPos.signature :=
  isValidTransaction_nonneg envAccept txPos (by decide)

/-- C2: whenever the stored hash differs from the digest of
`previousHash ++ signature concatenation ++ nonce` the block is rejected
(regardless of its transactions), and when it matches, the block is valid
iff every contained transaction is valid. -/
theorem isValidBlock_hash_gate (env : Crypto) (b : Block) :
    (b.hash ≠ env.sha512 (sumHash b) → isValidBlock env b = false) ∧
    (b.hash = env.sha512 (sumHash b) →
      (isValidBlock env b = true ↔
        ∀ t ∈ b.transactions, isValidTransaction env t = true)) := by
  constructor
  · intro h
    simp [isValidBlock, h]
  · intro h
    simp [isValidBlock, h, List.all_eq_true]

/-- Witness for C2 at the concrete block `blkOne`, whose stored hash does
equal the `envAccept` digest of its content. -/
theorem isValidBlock_hash_gate_witness :
    isValidBlock envAccept blkOne = true ↔
      ∀ t ∈ blkOne.transactions, isValidTransaction envAccept t = true :=
  (isValidBlock_hash_gate envAccept blkOne).2 (by decide)

/-- C6: a block with no transactions is valid exactly when its stored hash
equals the digest of `previousHash ++ "" ++ nonce` — the empty transaction
list contributes an empty segment, and the per-transaction check is
vacuously true. -/
theorem isValidBlock_empty_transactions (env : Crypto) (b : Block)
    (h : b.transactions = []) :
    isValidBlock env b = true ↔
      b.hash = env.sha512 (jsStr b.previousHash ++ "" ++ toString b.nonce) := by
  have hs : sumHash b = jsStr b.previousHash ++ "" ++ toString b.nonce := by
    simp [sumHash, transactionString, h, String.join]
  rw [isValidBlock, hs, h]
  by_cases hh : b.hash = env.sha512 (jsStr b.previousHash ++ "" ++ toString b.nonce)
  · simp [hh]
  · simp [hh]

/-- Witness for C6 at the concrete empty block `blkEmpty`. -/
theorem isValidBlock_empty_transactions_witness :
    isValidBlock envAccept blkEmpty = true ↔
      blkEmpty.hash
        = envAccept.sha512 (jsStr blkEmpty.previousHash ++ "" ++ toString blkEmpty.nonce) :=
  isValidBlock_empty_transactions envAccept blkEmpty rfl

/-- C8: each validator is deterministic — with the collaborator fixed, two
calls on the same input give equal results. (All three validators are
embedded as pure functions, faithfully: their source contains no
assignment, so a call cannot modify its input.) -/
theorem validators_deterministic (env : Crypto) (t : Transaction) (b : Block)
    (bc : Blockchain) (rt1 rt2 rb1 rb2 : Bool) (rc1 rc2 : Option Bool)
    (ht1 : isValidTransaction env t = rt1) (ht2 : isValidTransaction env t = rt2)
    (hb1 : isValidBlock env b = rb1) (hb2 : isValidBlock env b = rb2)
    (hc1 : isValidChain env bc = rc1) (hc2 : isValidChain env bc = rc2) :
    rt1 = rt2 ∧ rb1 = rb2 ∧ rc1 = rc2 :=
  ⟨ht1.symm.trans ht2, hb1.symm.trans hb2, hc1.symm.trans hc2⟩

/-- Witness for C8: two observations of each validator on concrete input. -/
theorem validators_deterministic_witness :
    true = true ∧ true = true ∧ some true = some true :=
  validators_deterministic envAccept txPos blkOne chainTwo
    true true true true (some true) (some true)
    (by decide) (by decide) (by decide) (by decide) (by decide) (by decide)

/-- A helper for C5: a mismatch at any consecutive pair makes the
slice-and-zip linkage scan report a break. -/
theorem chainLinkBroken_of_mismatch (blocks : List Block) (i : Nat)
    (h0 : i < blocks.length) (h1 : i + 1 < blocks.length)
    (h2 : (blocks.get ⟨i + 1, h1⟩).previousHash ≠ some (blocks.get ⟨i, h0⟩).hash) :
    chainLinkBroken blocks = true := by
  have hzlen : i < ((blocks.drop 1).zip blocks).length := by
    simp [List.length_zip, List.length_drop]
    omega
  apply List.any_eq_true.mpr
  refine ⟨((blocks.drop 1).zip blocks).get ⟨i, hzlen⟩, List.get_mem _ _ _, ?_⟩
  have hget : ((blocks.drop 1).zip blocks).get ⟨i, hzlen⟩
      = (blocks.get ⟨i + 1, h1⟩, blocks.get ⟨i, h0⟩) := by
    simp [List.getElem_zip, List.getElem_drop]
  rw [hget]
  simpa using h2

/-- C5: any consecutive pair whose linkage is broken —
`blocks[i+1].previousHash ≠ blocks[i].hash` — makes the whole chain
invalid, whatever the collaborator and the rest of the chain. -/
theorem isValidChain_link_mismatch (env : Crypto) (bc : Blockchain) (i : Nat)
    (h0 : i < bc.blocks.length) (h1 : i + 1 < bc.blocks.length)
    (h2 : (bc.blocks.get ⟨i + 1, h1⟩).previousHash
        ≠ some (bc.blocks.get ⟨i, h0⟩).hash) :
    isValidChain env bc = some false := by
  obtain ⟨blocks⟩ := bc
  have hlink : chainLinkBroken blocks = true :=
    chainLinkBroken_of_mismatch blocks i h0 h1 h2
  cases blocks with
  | nil => simp at h0
  | cons b0 rest =>
    simp only [isValidChain]
    split
    · rfl
    · simp [hlink]

/-- A block whose second entry records a wrong previous hash. -/
def blkBad : Block :=
  { transactions := [], previousHash := some "mismatch", nonce := 1, hash := "h1" }

/-- A two-block chain with broken linkage between its blocks. -/
def chainBroken : Blockchain := { blocks := [blkEmpty, blkBad] }

/-- Witness for C5 at the concrete chain `chainBroken` (pair at index 0). -/
theorem isValidChain_link_mismatch_witness :
    isValidChain envAccept chainBroken = some false :=
  isValidChain_link_mismatch envAccept chainBroken 0 (by decide) (by decide)
    (by decide)

/-- A valid block lets every contained transaction pass the transaction
validator (read off the final branch of `isValidBlock`). -/
theorem isValidBlock_transactions_all (env : Crypto) (b : Block)
    (h : isValidBlock env b = true) :
    b.transactions.all (isValidTransaction env) = true := by
  unfold isValidBlock at h
  split at h
  · exact absurd h (by simp)
  · exact h

/-- Folding list concatenation satisfies `all p` exactly when the seed and
every constituent list do. -/
theorem foldl_append_all {α : Type} (p : α → Bool) :
    ∀ (L : List (List α)) (init : List α),
      ((L.foldl (fun flat ts => flat ++ ts) init).all p)
        = (init.all p && L.all (fun l => l.all p))
  | [], init => by simp
  | l :: L, init => by
    rw [List.foldl_cons, foldl_append_all p L (init ++ l)]
    simp [Bool.and_assoc]

/-- The chain validator minus its final flattened-transaction pass: only
the genesis check, the linkage scan and the per-block check. -/
def isValidChainNoFlatten (env : Crypto) (blockchain : Blockchain) : Option Bool :=
  match blockchain.blocks with
  | [] => none
  | b0 :: rest =>
    if b0.previousHash ≠ none then
      some false
    else if chainLinkBroken (b0 :: rest) then
      some false
    else if (b0 :: rest).any (fun b => !isValidBlock env b) then
      some false
    else
      some true

/-- C9: the chain validator's final pass over the flattened transactions is
redundant — `isValidChain` agrees everywhere with the variant that stops
after the per-block check, because a block only validates when all of its
transactions do. -/
theorem isValidChain_flatten_redundant (env : Crypto) (bc : Blockchain) :
    isValidChain env bc = isValidChainNoFlatten env bc := by
  obtain ⟨blocks⟩ := bc
  cases blocks with
  | nil => rfl
  | cons b0 rest =>
    simp only [isValidChain, isValidChainNoFlatten]
    split
    · rfl
    · split
      · rfl
      · split
        · rfl
        · rename_i hany
          have hall : ∀ b ∈ b0 :: rest, isValidBlock env b = true := by
            intro b hb
            by_contra hfalse
            exact hany (List.any_eq_true.mpr
              ⟨b, hb, by simp [Bool.eq_false_iff.mpr hfalse]⟩)
          have hmem : ∀ l ∈ (b0 :: rest).map Block.transactions,
              ∀ t ∈ l, isValidTransaction env t = true := by
            intro l hl
            obtain ⟨b, hb, rfl⟩ := List.mem_map.mp hl
            exact List.all_eq_true.mp (isValidBlock_transactions_all env b (hall b hb))
          have hflat : (flattenTransactions (b0 :: rest)).all
              (isValidTransaction env) = true := by
            rw [flattenTransactions, foldl_append_all]
            simp only [List.all_nil, Bool.true_and, List.all_eq_true]
            exact hmem
          rw [hflat]

/-- C10: the tamper injector succeeds exactly on a chain with a block at
index 1 whose transaction list is non-empty; otherwise the unguarded
accesses `blocks[1].transactions[0]` throw (modelled by `none`). -/
theorem breakChain_defined_iff (bc : Blockchain) :
    (breakChain bc).isSome = true ↔
      ∃ b0 b1 rest t0 ts,
        bc.blocks = b0 :: b1 :: rest ∧ b1.transactions = t0 :: ts := by
  obtain ⟨blocks⟩ := bc
  match blocks with
  | [] => simp [breakChain]
  | [b0] => simp [breakChain]
  | b0 :: b1 :: rest =>
    cases htx : b1.transactions with
    | nil => simp [breakChain, htx]
    | cons t0 ts =>
      simp only [breakChain, htx, Option.isSome_some, true_iff]
      exact ⟨b0, b1, rest, t0, ts, rfl, htx⟩

/-- C7: on a chain with at least two blocks whose second block has at least
one transaction, the tamper injector succeeds and only changes the `amount`
of the first transaction of block 1 — the surrounding blocks, the rest of
that block's transactions, its stored hash, linkage and nonce, and the
mutated transaction's source, recipient and signature are all unchanged. -/
theorem breakChain_frame (bc : Blockchain) (b0 b1 : Block) (rest : List Block)
    (t0 : Transaction) (ts : List Transaction)
    (hb : bc.blocks = b0 :: b1 :: rest) (ht : b1.transactions = t0 :: ts) :
    ∃ bc' b1' t0',
      breakChain bc = some bc' ∧
      bc'.blocks = b0 :: b1' :: rest ∧
      b1'.transactions = t0' :: ts ∧
      b1'.previousHash = b1.previousHash ∧
      b1'.nonce = b1.nonce ∧
      b1'.hash = b1.hash ∧
      t0'.amount = 999999999 ∧
      t0'.source = t0.source ∧
      t0'.recipient = t0.recipient ∧
      t0'.signature = t0.signature := by
  obtain ⟨blocks⟩ := bc
  simp only at hb
  subst hb
  refine ⟨⟨b0 :: { b1 with transactions := { t0 with amount := 999999999 } :: ts } :: rest⟩,
    { b1 with transactions := { t0 with amount := 999999999 } :: ts },
    { t0 with amount := 999999999 },
    ?_, rfl, rfl, rfl, rfl, rfl, rfl, rfl, rfl, rfl⟩
  simp [breakChain, ht]

/-- Witness for C7 at the concrete chain `chainTwo`. -/
theorem breakChain_frame_witness :
    ∃ bc' b1' t0',
      breakChain chainTwo = some bc' ∧
      bc'.blocks = blkEmpty :: b1' :: [] ∧
      b1'.transactions = t0' :: [] ∧
      b1'.previousHash = blkOne.previousHash ∧
      b1'.nonce = blkOne.nonce ∧
      b1'.hash = blkOne.hash ∧
      t0'.amount = 999999999 ∧
      t0'.source = txPos.source ∧
      t0'.recipient = txPos.recipient ∧
      t0'.signature = txPos.signature :=
  breakChain_frame chainTwo blkEmpty blkOne [] txPos [] rfl rfl
